import Mathlib

/-!
Verification of the contact-management backend: a shallow embedding of the
contact repository (`src/repository/contacts.py`), the data model
(`src/database/models.py`, `src/schemas.py`) and the contact API routes
(`src/routes/contacts.py`), together with proofs of the specified
properties of those operations.

The persistence store is modelled as a list of contact rows plus a
next-identifier counter.  The store-level uniqueness constraints on
`Contact.email` and `Contact.phone` (declared `unique=True` in
`src/database/models.py`) are enforced at the commit points that can
violate them (insert and field update), surfacing as a `StoreErr` that the
calling layer may or may not handle — exactly as an `IntegrityError` does
in the original code.  The request clock (`func.now()` / `datetime.now()`)
is passed explicitly.
-/

namespace ContactsApp

/-! ### Calendar dates (Python `datetime.date`) -/

structure Date where
  year : Nat
  month : Nat
  day : Nat
  deriving DecidableEq, Repr

/-- Gregorian leap-year test, as in Python's `calendar`/`datetime`. -/
def isLeap (y : Nat) : Bool :=
  y % 4 == 0 && (y % 100 != 0 || y % 400 == 0)

/-- Length of month `m` in year `y`. -/
def daysInMonth (y m : Nat) : Nat :=
  if m = 2 then (if isLeap y then 29 else 28)
  else if m = 4 ∨ m = 6 ∨ m = 9 ∨ m = 11 then 30
  else 31

/-- Validity of a (year, month, day) triple, as checked by the
`datetime.date` constructor. -/
def validDate (y m d : Nat) : Bool :=
  1 ≤ m && m ≤ 12 && 1 ≤ d && d ≤ daysInMonth y m

/-- Python's `d.replace(year=y)`: rebuilds the date with the new year and
raises `ValueError` (here: `none`) when the result is not a valid date —
notably for February 29 in a non-leap year. -/
def replaceYear (d : Date) (y : Nat) : Option Date :=
  if validDate y d.month d.day then some { d with year := y } else none

/-- Day number of a date in the proleptic Gregorian calendar (an affine
shift of Python's `date.toordinal`), so that Python's `(d1 - d2).days`
is `toDays d1 - toDays d2`. -/
def toDays (d : Date) : Int :=
  let y : Int := if d.month ≤ 2 then (d.year : Int) - 1 else (d.year : Int)
  let era : Int := y / 400
  let yoe : Int := y - era * 400
  let mp : Int := ((d.month : Int) + 9) % 12
  let doy : Int := (153 * mp + 2) / 5 + (d.day : Int) - 1
  let doe : Int := yoe * 365 + yoe / 4 - yoe / 100 + doy
  era * 146097 + doe - 719468

/-! ### Data model (`src/database/models.py`, `src/schemas.py`) -/

inductive Role where
  | admin
  | moderator
  | user
  deriving DecidableEq, BEq, Repr

structure User where
  id : Nat
  roles : Role
  deriving DecidableEq, Repr

/-- A row of the `contacts` table. -/
structure Contact where
  id : Nat
  name : String
  surname : String
  email : String
  phone : String
  birthday : Option Date
  additional_info : String
  created_at : Nat
  updated_at : Nat
  user_id : Nat
  deriving DecidableEq, Repr

/-- The validated request body (`src/schemas.py` `ContactModel`). -/
structure ContactModel where
  name : String
  surname : String
  email : String
  phone : String
  birthday : Option Date
  additional_info : String
  deriving DecidableEq, Repr

/-- The persistence store: the `contacts` table in row order plus the
primary-key generator. -/
structure Db where
  contacts : List Contact
  nextId : Nat
  deriving DecidableEq, Repr

/-- A store-level failure raised at commit: here, violation of the global
`unique=True` constraints on `Contact.email` / `Contact.phone`. -/
inductive StoreErr where
  | uniqueViolation
  deriving DecidableEq, Repr

/-! ### Contact repository (`src/repository/contacts.py`) -/

/-- `get_contacts`: `db.query(Contact).filter_by(user_id=user.id)
.limit(limit).offset(offset).all()` — SQL applies OFFSET before LIMIT. -/
def get_contacts (user : User) (limit offset : Nat) (db : Db) : List Contact :=
  ((db.contacts.filter (fun c => c.user_id == user.id)).drop offset).take limit

/-- `get_contact_by_id`: `filter_by(user_id=user.id, id=contact_id).first()`. -/
def get_contact_by_id (user : User) (contact_id : Nat) (db : Db) : Option Contact :=
  db.contacts.find? (fun c => c.user_id == user.id && c.id == contact_id)

/-- `get_contact_by_email`: `filter_by(user_id=user.id, email=email).first()`. -/
def get_contact_by_email (user : User) (email : String) (db : Db) : Option Contact :=
  db.contacts.find? (fun c => c.user_id == user.id && c.email == email)

/-- `get_contact_by_phone`: `filter_by(user_id=user.id, phone=phone).first()`. -/
def get_contact_by_phone (user : User) (phone : String) (db : Db) : Option Contact :=
  db.contacts.find? (fun c => c.user_id == user.id && c.phone == phone)

/-- `create_contact`: build `Contact(**body.dict(), user_id=user.id)`, then
`db.add; db.commit; db.refresh`.  The commit enforces the global
uniqueness of email and phone; on violation the insert is rejected. -/
def create_contact (user : User) (body : ContactModel) (now : Nat) (db : Db) :
    Except StoreErr (Contact × Db) :=
  let contact : Contact :=
    { id := db.nextId, name := body.name, surname := body.surname,
      email := body.email, phone := body.phone, birthday := body.birthday,
      additional_info := body.additional_info,
      created_at := now, updated_at := now, user_id := user.id }
  if db.contacts.any (fun x => x.email == body.email || x.phone == body.phone) then
    Except.error StoreErr.uniqueViolation
  else
    Except.ok (contact, { contacts := db.contacts ++ [contact], nextId := db.nextId + 1 })

/-- The six field assignments `contact.name = body.name; ...` performed by
`update_contact` (the `onupdate=func.now()` column refreshes the update
timestamp at commit). -/
def applyBody (body : ContactModel) (now : Nat) (c : Contact) : Contact :=
  { c with name := body.name, surname := body.surname, email := body.email,
           phone := body.phone, birthday := body.birthday,
           additional_info := body.additional_info, updated_at := now }

/-- `update_contact`: look the row up via `get_contact_by_id`; when found,
assign all six mutable fields from the body and commit.  The commit
enforces the uniqueness constraints against every other row. -/
def update_contact (user : User) (contact_id : Nat) (body : ContactModel) (now : Nat)
    (db : Db) : Except StoreErr (Option Contact × Db) :=
  match get_contact_by_id user contact_id db with
  | none => Except.ok (none, db)
  | some c =>
    let c2 : Contact := applyBody body now c
    if db.contacts.any (fun x => !(x.id == c.id) && (x.email == body.email || x.phone == body.phone)) then
      Except.error StoreErr.uniqueViolation
    else
      Except.ok (some c2,
        { db with contacts := db.contacts.map (fun x => if x.id == c.id then c2 else x) })

/-- `delete_contact`: look the row up via `get_contact_by_id`; when found,
`db.delete(contact); db.commit()` removes the row with that primary key. -/
def delete_contact (user : User) (contact_id : Nat) (db : Db) : Option Contact × Db :=
  match get_contact_by_id user contact_id db with
  | none => (none, db)
  | some c =>
    (some c, { db with contacts := db.contacts.filter (fun x => !(x.id == c.id)) })

/-! Matching for `search_contacts`.  The code's predicate is
`func.lower(col).contains(func.lower(query))`, which SQLAlchemy compiles
to `lower(col) LIKE '%' || lower(query) || '%'` with no escaping, so `%`
and `_` inside the query act as SQL wildcards.  `isPre`/`subStr` below
are the spec's plain substring notion, kept to compare the two. -/

/-- Spec-side list-prefix test (plain, no wildcards). -/
def isPre : List Char → List Char → Bool
  | [], _ => true
  | _ :: _, [] => false
  | a :: as, b :: bs => a == b && isPre as bs

/-- Spec-side substring test: `needle` occurs contiguously in `hay`,
every character literal. -/
def subStr (needle : List Char) : List Char → Bool
  | [] => isPre needle []
  | c :: t => isPre needle (c :: t) || subStr needle t

/-- SQL `LIKE` matching of a string against a pattern, with explicit
fuel: `%` matches any (possibly empty) sequence, `_` matches exactly one
character, everything else is literal.  `p.length + s.length` strictly
decreases at every recursive call, so any fuel above that bound computes
the match; the fuel only makes the recursion structural. -/
def likeMatchF : Nat → List Char → List Char → Bool
  | 0, _, _ => false
  | _ + 1, [], s => s.isEmpty
  | f + 1, c :: p, s =>
    if c == '%' then
      likeMatchF f p s ||
        (match s with
         | [] => false
         | _ :: t => likeMatchF f (c :: p) t)
    else
      match s with
      | [] => false
      | b :: t => (c == '_' || c == b) && likeMatchF f p t

/-- SQL `s LIKE p`. -/
def likeMatch (p s : List Char) : Bool :=
  likeMatchF (p.length + s.length + 1) p s

/-- No `LIKE` wildcard (`%` or `_`) occurs in the list. -/
def noWild (l : List Char) : Bool :=
  l.all (fun c => !(c == '%') && !(c == '_'))

/-- SQL `LOWER` / Python `str.lower`: character-wise lowercasing. -/
def strLower (s : String) : String :=
  ⟨s.data.map Char.toLower⟩

/-- `func.lower(hay).contains(func.lower(needle))`: compiled to
`lower(hay) LIKE '%' || lower(needle) || '%'` with no escaping of the
needle. -/
def lowerContains (hay needle : String) : Bool :=
  likeMatch ('%' :: ((strLower needle).data ++ ['%'])) (strLower hay).data

/-- `search_contacts`: rows of this user matching the query
case-insensitively on name, surname, email or phone; all of them. -/
def search_contacts (user : User) (query : String) (db : Db) : List Contact :=
  db.contacts.filter (fun c => c.user_id == user.id &&
    (lowerContains c.name query || lowerContains c.surname query ||
     lowerContains c.email query || lowerContains c.phone query))

/-- Per-contact step of `get_birthdays`: skip a `None` birthday; otherwise
compute `birthday.replace(year=now.year)` — which can raise (`none`) — and
test `days_until_birthday in range(8)`. -/
def upcomingKeep (now : Date) (c : Contact) : Option Bool :=
  match c.birthday with
  | none => some false
  | some b =>
    match replaceYear b now.year with
    | none => none
    | some bty =>
      let days : Int := toDays bty - toDays now
      some (decide (0 ≤ days ∧ days < 8))

/-- The `for contact in contacts:` loop of `get_birthdays`: collect the
contacts kept by `upcomingKeep`; a raised `ValueError` aborts the whole
call. -/
def birthdaysFilter (now : Date) : List Contact → Option (List Contact)
  | [] => some []
  | c :: rest =>
    match upcomingKeep now c with
    | none => none
    | some keep =>
      match birthdaysFilter now rest with
      | none => none
      | some tail => some (if keep then c :: tail else tail)

/-- `get_birthdays`: scan this user's contacts with the birthday-window
test.  `now` is `datetime.now().date()`. -/
def get_birthdays (user : User) (now : Date) (db : Db) : Option (List Contact) :=
  birthdaysFilter now (db.contacts.filter (fun c => c.user_id == user.id))

/-! ### Authorization gate and API routes (`src/routes/contacts.py`) -/

/-- Wire-level failure outcomes of a route: 403, 404, 409, and the 500
produced when an exception escapes the handler unhandled. -/
inductive ApiError where
  | forbidden
  | notFound
  | conflict
  | internalError
  deriving DecidableEq, Repr

/-- Modelled from the spec: the `RoleAccess` dependency of the missing
`src/services/roles.py` — "decide, given an authenticated identity's role
and a statically declared required-role set for an operation, whether to
permit the call"; `check(actualRole, allowedRoles) -> allow | forbid`. -/
def roleCheck (allowed : List Role) (r : Role) : Bool :=
  allowed.contains r

/-- `RoleAccess([Role.admin, Role.moderator, Role.user])` for reads. -/
def allowed_operation_get : List Role :=
  [Role.admin, Role.moderator, Role.user]

/-- `RoleAccess([Role.admin, Role.moderator, Role.user])` for create. -/
def allowed_operation_create : List Role :=
  [Role.admin, Role.moderator, Role.user]

/-- `RoleAccess([Role.admin, Role.moderator])`, declared for update. -/
def allowed_operation_update : List Role :=
  [Role.admin, Role.moderator]

/-- `RoleAccess([Role.admin])`, declared for delete. -/
def allowed_operation_remove : List Role :=
  [Role.admin]

/-- `POST /contacts` (`create_contact` route): gate through
`allowed_operation_create`, probe for an existing contact of this user by
email and by phone, answer 409 when either probe hits, otherwise insert.
No handler surrounds the insert, so a store-level uniqueness violation
escapes as an unhandled exception (500); the failed transaction rolls
back, leaving the store unchanged. -/
def route_create_contact (user : User) (body : ContactModel) (now : Nat) (db : Db) :
    Except ApiError Contact × Db :=
  if roleCheck allowed_operation_create user.roles = false then
    (Except.error ApiError.forbidden, db)
  else
    let has_contact_by_email := get_contact_by_email user body.email db
    let has_contact_by_phone := get_contact_by_phone user body.phone db
    if has_contact_by_email.isSome || has_contact_by_phone.isSome then
      (Except.error ApiError.conflict, db)
    else
      match create_contact user body now db with
      | Except.error _ => (Except.error ApiError.internalError, db)
      | Except.ok (c, db2) => (Except.ok c, db2)

/-- `PUT /contacts/{id}` (`update_contact` route): gated by
`allowed_operation_get` (not by the declared `allowed_operation_update`);
delegates to the repository update, answers 404 on `None`; its re-assignment
of the same six field values and second commit change nothing further.  An
uncaught store error escapes as 500. -/
def route_update_contact (user : User) (contact_id : Nat) (body : ContactModel) (now : Nat)
    (db : Db) : Except ApiError Contact × Db :=
  if roleCheck allowed_operation_get user.roles = false then
    (Except.error ApiError.forbidden, db)
  else
    match update_contact user contact_id body now db with
    | Except.error _ => (Except.error ApiError.internalError, db)
    | Except.ok (none, db2) => (Except.error ApiError.notFound, db2)
    | Except.ok (some c, db2) => (Except.ok c, db2)

/-- `DELETE /contacts/{id}` (`delete_contact` route): gated by
`allowed_operation_get` (not by the declared `allowed_operation_remove`);
delegates to the repository delete, answers 404 on `None`; its second
`db.delete(contact); db.commit()` matches no remaining row with that
primary key and removes nothing further. -/
def route_delete_contact (user : User) (contact_id : Nat) (db : Db) :
    Except ApiError Contact × Db :=
  if roleCheck allowed_operation_get user.roles = false then
    (Except.error ApiError.forbidden, db)
  else
    match delete_contact user contact_id db with
    | (none, db2) => (Except.error ApiError.notFound, db2)
    | (some c, db2) =>
      (Except.ok c, { db2 with contacts := db2.contacts.filter (fun x => !(x.id == c.id)) })

/-- The row assembled by `create_contact` from the request body: generated
identifier, the six caller-supplied fields, both timestamps, and the
requesting user as owner. -/
def newContact (u : User) (body : ContactModel) (now : Nat) (db : Db) : Contact :=
  { id := db.nextId, name := body.name, surname := body.surname,
    email := body.email, phone := body.phone, birthday := body.birthday,
    additional_info := body.additional_info,
    created_at := now, updated_at := now, user_id := u.id }

/-! ### Concrete fixtures used in evaluations and witnesses -/

def uAdmin : User := ⟨1, Role.admin⟩

def uUser : User := ⟨2, Role.user⟩

def uMod : User := ⟨3, Role.moderator⟩

def cAlice : Contact :=
  { id := 1, name := "Alice", surname := "Smith", email := "alice@example.com",
    phone := "1111111111", birthday := none, additional_info := "",
    created_at := 0, updated_at := 0, user_id := 1 }

/-- A contact owned by the role-`user` caller `uUser`. -/
def cBob : Contact :=
  { id := 2, name := "Bob", surname := "Jones", email := "bob@example.com",
    phone := "2222222222", birthday := none, additional_info := "",
    created_at := 0, updated_at := 0, user_id := 2 }

def dbAlice : Db := ⟨[cAlice], 2⟩

def dbBoth : Db := ⟨[cAlice, cBob], 3⟩

def bodySameUserDup : ContactModel :=
  { name := "Annie", surname := "Other", email := "alice@example.com",
    phone := "9999999999", birthday := none, additional_info := "" }

def bodyCrossUserDup : ContactModel :=
  { name := "Annie", surname := "Other", email := "alice@example.com",
    phone := "3333333333", birthday := none, additional_info := "" }

def bodyFresh : ContactModel :=
  { name := "Carol", surname := "Nova", email := "carol@example.com",
    phone := "4444444444", birthday := none, additional_info := "" }

/-- The row `create_contact uAdmin bodyFresh 5 dbAlice` persists. -/
def cCarol : Contact :=
  { id := 2, name := "Carol", surname := "Nova", email := "carol@example.com",
    phone := "4444444444", birthday := none, additional_info := "",
    created_at := 5, updated_at := 5, user_id := 1 }

def dbAliceCarol : Db := ⟨[cAlice, cCarol], 3⟩

def bodyDana : ContactModel :=
  { name := "Dana", surname := "Moss", email := "dana@example.com",
    phone := "5555555555", birthday := none, additional_info := "vip" }

def bodyEve : ContactModel :=
  { name := "Eve", surname := "Stone", email := "eve@example.com",
    phone := "1111111111", birthday := none, additional_info := "" }

def dbFeb29 : Db := ⟨[{ cAlice with birthday := some ⟨2000, 2, 29⟩ }], 2⟩

/-- The spec's search example: a contact named "Ann Lee" with email
"a@x.com". -/
def cAnn : Contact :=
  { id := 5, name := "Ann Lee", surname := "Lee", email := "a@x.com",
    phone := "7777777777", birthday := none, additional_info := "",
    created_at := 0, updated_at := 0, user_id := 1 }

def dbAnn : Db := ⟨[cAnn], 6⟩

/-- The spec's birthday example dated 2024-06-10: birthday 1990-06-15 is
five days ahead. -/
def c615 : Contact :=
  { cAlice with id := 11, email := "f1@example.com", phone := "6151111111",
                birthday := some ⟨1990, 6, 15⟩ }

/-- Birthday 1990-06-20: ten days ahead of 2024-06-10, outside the window. -/
def c620 : Contact :=
  { cAlice with id := 12, email := "f2@example.com", phone := "6201111111",
                birthday := some ⟨1990, 6, 20⟩ }

/-- Birthday 1990-06-09: already passed on 2024-06-10, negative day count. -/
def c609 : Contact :=
  { cAlice with id := 13, email := "f3@example.com", phone := "6091111111",
                birthday := some ⟨1990, 6, 9⟩ }

def dbBirthdays : Db := ⟨[c615, c620, c609], 14⟩

/-! ### Helper lemmas: branch equations of the repository operations -/

theorem roleCheck_create_all (r : Role) : roleCheck allowed_operation_create r = true := by
  cases r <;> rfl

theorem create_contact_of_clash {u : User} {body : ContactModel} {now : Nat} {db : Db}
    (hcl : db.contacts.any (fun x => x.email == body.email || x.phone == body.phone) = true) :
    create_contact u body now db = Except.error StoreErr.uniqueViolation := by
  unfold create_contact
  simp only [hcl, if_true]

theorem create_contact_of_fresh {u : User} {body : ContactModel} {now : Nat} {db : Db}
    (hcl : db.contacts.any (fun x => x.email == body.email || x.phone == body.phone) = false) :
    create_contact u body now db
      = Except.ok (newContact u body now db,
          { contacts := db.contacts ++ [newContact u body now db], nextId := db.nextId + 1 }) := by
  unfold create_contact
  simp only [hcl, Bool.false_eq_true, if_false]
  rfl

theorem update_contact_of_none {u : User} {cid : Nat} {body : ContactModel} {now : Nat}
    {db : Db} (h : get_contact_by_id u cid db = none) :
    update_contact u cid body now db = Except.ok (none, db) := by
  unfold update_contact
  rw [h]

theorem update_contact_of_some_fresh {u : User} {cid : Nat} {body : ContactModel} {now : Nat}
    {db : Db} {c : Contact} (h : get_contact_by_id u cid db = some c)
    (hcl : db.contacts.any
      (fun x => !(x.id == c.id) && (x.email == body.email || x.phone == body.phone)) = false) :
    update_contact u cid body now db
      = Except.ok (some (applyBody body now c),
          { db with contacts := db.contacts.map
                        (fun x => if x.id == c.id then applyBody body now c else x) }) := by
  unfold update_contact
  rw [h]
  simp only [hcl, Bool.false_eq_true, if_false]

theorem delete_contact_of_none {u : User} {cid : Nat} {db : Db}
    (h : get_contact_by_id u cid db = none) :
    delete_contact u cid db = (none, db) := by
  unfold delete_contact
  rw [h]

theorem delete_contact_of_some {u : User} {cid : Nat} {db : Db} {c : Contact}
    (h : get_contact_by_id u cid db = some c) :
    delete_contact u cid db
      = (some c, { db with contacts := db.contacts.filter (fun x => !(x.id == c.id)) }) := by
  unfold delete_contact
  rw [h]


theorem isPre_iff (n h : List Char) : isPre n h = true ↔ ∃ t, h = n ++ t := by
  induction n generalizing h with
  | nil => simp [isPre]
  | cons a as ih =>
    cases h with
    | nil => simp [isPre]
    | cons b bs =>
      simp only [isPre, Bool.and_eq_true, beq_iff_eq, ih, List.cons_append]
      constructor
      · rintro ⟨rfl, t, rfl⟩
        exact ⟨t, rfl⟩
      · rintro ⟨t, heq⟩
        injection heq with h1 h2
        exact ⟨h1.symm, t, h2⟩

theorem subStr_iff (n h : List Char) : subStr n h = true ↔ ∃ l r, h = l ++ n ++ r := by
  induction h with
  | nil =>
    simp only [subStr, isPre_iff]
    constructor
    · rintro ⟨t, ht⟩
      rcases List.append_eq_nil.mp ht.symm with ⟨rfl, rfl⟩
      exact ⟨[], [], rfl⟩
    · rintro ⟨l, r, hlr⟩
      rcases List.append_eq_nil.mp hlr.symm with ⟨hln, rfl⟩
      rcases List.append_eq_nil.mp hln with ⟨rfl, rfl⟩
      exact ⟨[], rfl⟩
  | cons c t ih =>
    simp only [subStr, Bool.or_eq_true, isPre_iff, ih]
    constructor
    · rintro (⟨s, hs⟩ | ⟨l, r, hlr⟩)
      · exact ⟨[], s, by simpa using hs⟩
      · exact ⟨c :: l, r, by simp [hlr]⟩
    · rintro ⟨l, r, hlr⟩
      cases l with
      | nil => exact Or.inl ⟨r, by simpa using hlr⟩
      | cons x xs =>
        injection hlr with h1 h2
        exact Or.inr ⟨xs, r, h2⟩

theorem likeMatchF_succ_pct_nil (f : Nat) (p : List Char) :
    likeMatchF (f + 1) ('%' :: p) [] = (likeMatchF f p [] || false) := rfl

theorem likeMatchF_succ_pct_cons (f : Nat) (p : List Char) (b : Char) (t : List Char) :
    likeMatchF (f + 1) ('%' :: p) (b :: t)
      = (likeMatchF f p (b :: t) || likeMatchF f ('%' :: p) t) := rfl

theorem likeMatchF_succ_lit_nil {c : Char} (hc : (c == '%') = false) (f : Nat)
    (p : List Char) : likeMatchF (f + 1) (c :: p) [] = false := by
  rw [show likeMatchF (f + 1) (c :: p) []
      = (if c == '%' then (likeMatchF f p [] || false) else false) from rfl]
  rw [if_neg (by simp [hc])]

theorem likeMatchF_succ_lit_cons {c : Char} (hc : (c == '%') = false) (f : Nat)
    (p : List Char) (b : Char) (t : List Char) :
    likeMatchF (f + 1) (c :: p) (b :: t)
      = ((c == '_' || c == b) && likeMatchF f p t) := by
  rw [show likeMatchF (f + 1) (c :: p) (b :: t)
      = (if c == '%' then (likeMatchF f p (b :: t) || likeMatchF f (c :: p) t)
         else ((c == '_' || c == b) && likeMatchF f p t)) from rfl]
  rw [if_neg (by simp [hc])]

theorem likeMatchF_fuel_free : ∀ (n : Nat) (p s : List Char) (f g : Nat),
    p.length + s.length ≤ n → p.length + s.length < f → p.length + s.length < g →
    likeMatchF f p s = likeMatchF g p s := by
  intro n
  induction n with
  | zero =>
    intro p s f g hn hf hg
    have hp : p = [] := List.eq_nil_of_length_eq_zero (by omega)
    have hs : s = [] := List.eq_nil_of_length_eq_zero (by omega)
    subst hp
    subst hs
    cases f with
    | zero => omega
    | succ f2 =>
      cases g with
      | zero => omega
      | succ g2 => rfl
  | succ n ih =>
    intro p s f g hn hf hg
    cases f with
    | zero => omega
    | succ f2 =>
      cases g with
      | zero => omega
      | succ g2 =>
        cases p with
        | nil => rfl
        | cons c p2 =>
          simp only [List.length_cons] at hn hf hg
          by_cases hc : c = '%'
          · subst hc
            cases s with
            | nil =>
              simp only [List.length_nil] at hn hf hg
              rw [likeMatchF_succ_pct_nil, likeMatchF_succ_pct_nil,
                  ih p2 [] f2 g2 (by simp only [List.length_nil]; omega)
                    (by simp only [List.length_nil]; omega)
                    (by simp only [List.length_nil]; omega)]
            | cons b t =>
              simp only [List.length_cons] at hn hf hg
              rw [likeMatchF_succ_pct_cons, likeMatchF_succ_pct_cons,
                  ih p2 (b :: t) f2 g2 (by simp only [List.length_cons]; omega)
                    (by simp only [List.length_cons]; omega)
                    (by simp only [List.length_cons]; omega),
                  ih ('%' :: p2) t f2 g2 (by simp only [List.length_cons]; omega)
                    (by simp only [List.length_cons]; omega)
                    (by simp only [List.length_cons]; omega)]
          · have hcb : (c == '%') = false := by simp [hc]
            cases s with
            | nil => rw [likeMatchF_succ_lit_nil hcb, likeMatchF_succ_lit_nil hcb]
            | cons b t =>
              simp only [List.length_cons] at hn hf hg
              rw [likeMatchF_succ_lit_cons hcb, likeMatchF_succ_lit_cons hcb,
                  ih p2 t f2 g2 (by omega) (by omega) (by omega)]

theorem likeMatch_fuel_eq {p s : List Char} {f : Nat} (hf : p.length + s.length < f) :
    likeMatchF f p s = likeMatch p s :=
  likeMatchF_fuel_free (p.length + s.length) p s f (p.length + s.length + 1)
    (Nat.le_refl _) hf (by omega)

theorem likeMatch_pct_nil (p : List Char) : likeMatch ('%' :: p) [] = likeMatch p [] := by
  rw [show likeMatch ('%' :: p) []
      = (likeMatchF (('%' :: p).length + List.length ([] : List Char)) p [] || false) from rfl]
  rw [Bool.or_false, likeMatch_fuel_eq (by simp only [List.length_cons, List.length_nil]; omega)]

theorem likeMatch_pct_cons (p : List Char) (b : Char) (t : List Char) :
    likeMatch ('%' :: p) (b :: t) = (likeMatch p (b :: t) || likeMatch ('%' :: p) t) := by
  rw [show likeMatch ('%' :: p) (b :: t)
      = (likeMatchF (('%' :: p).length + (b :: t).length) p (b :: t)
         || likeMatchF (('%' :: p).length + (b :: t).length) ('%' :: p) t) from rfl]
  rw [likeMatch_fuel_eq (by simp only [List.length_cons]; omega),
      likeMatch_fuel_eq (by simp only [List.length_cons]; omega)]

theorem likeMatch_lit_nil {c : Char} (hc : (c == '%') = false) (p : List Char) :
    likeMatch (c :: p) [] = false :=
  likeMatchF_succ_lit_nil hc _ _

theorem likeMatch_lit_cons {c : Char} (hc : (c == '%') = false) (p : List Char)
    (b : Char) (t : List Char) :
    likeMatch (c :: p) (b :: t) = ((c == '_' || c == b) && likeMatch p t) := by
  rw [show likeMatch (c :: p) (b :: t)
      = likeMatchF ((c :: p).length + (b :: t).length + 1) (c :: p) (b :: t) from rfl,
      likeMatchF_succ_lit_cons hc,
      likeMatch_fuel_eq (by simp only [List.length_cons]; omega)]

theorem likeMatch_pct_iff (p : List Char) (s : List Char) :
    likeMatch ('%' :: p) s = true ↔ ∃ l r, s = l ++ r ∧ likeMatch p r = true := by
  induction s with
  | nil =>
    rw [likeMatch_pct_nil]
    constructor
    · intro h
      exact ⟨[], [], rfl, h⟩
    · rintro ⟨l, r, hlr, h⟩
      rcases List.append_eq_nil.mp hlr.symm with ⟨rfl, rfl⟩
      exact h
  | cons b t ih =>
    rw [likeMatch_pct_cons, Bool.or_eq_true, ih]
    constructor
    · rintro (h | ⟨l, r, hlr, h⟩)
      · exact ⟨[], b :: t, rfl, h⟩
      · exact ⟨b :: l, r, by rw [List.cons_append, hlr], h⟩
    · rintro ⟨l, r, hlr, h⟩
      cases l with
      | nil =>
        rw [List.nil_append] at hlr
        refine Or.inl ?_
        rw [hlr]
        exact h
      | cons x xs =>
        rw [List.cons_append] at hlr
        injection hlr with h1 h2
        exact Or.inr ⟨xs, r, h2, h⟩

theorem likeMatch_lit_pct_iff : ∀ (q : List Char), noWild q = true →
    ∀ (s : List Char), (likeMatch (q ++ ['%']) s = true ↔ ∃ r, s = q ++ r) := by
  intro q
  induction q with
  | nil =>
    intro _ s
    constructor
    · intro _
      exact ⟨s, rfl⟩
    · intro _
      exact (likeMatch_pct_iff [] s).mpr ⟨s, [], (List.append_nil s).symm, rfl⟩
  | cons a q2 ih =>
    intro hw s
    have h3 := hw
    unfold noWild at h3
    rw [List.all_cons, Bool.and_eq_true, Bool.and_eq_true] at h3
    obtain ⟨⟨ha, ha2⟩, hw2⟩ := h3
    rw [Bool.not_eq_true'] at ha ha2
    cases s with
    | nil =>
      rw [show (a :: q2) ++ ['%'] = a :: (q2 ++ ['%']) from rfl, likeMatch_lit_nil ha]
      simp
    | cons b t =>
      rw [show (a :: q2) ++ ['%'] = a :: (q2 ++ ['%']) from rfl,
          likeMatch_lit_cons ha, ha2, Bool.false_or, Bool.and_eq_true, beq_iff_eq,
          ih hw2 t]
      constructor
      · rintro ⟨rfl, r, rfl⟩
        exact ⟨r, rfl⟩
      · rintro ⟨r, hr⟩
        rw [List.cons_append] at hr
        injection hr with h1 h2
        exact ⟨h1.symm, r, h2⟩

theorem likeMatch_substring_iff {q : List Char} (hw : noWild q = true) (s : List Char) :
    likeMatch ('%' :: (q ++ ['%'])) s = true ↔ ∃ l r, s = l ++ q ++ r := by
  rw [likeMatch_pct_iff]
  constructor
  · rintro ⟨l, r0, rfl, h⟩
    rcases (likeMatch_lit_pct_iff q hw r0).mp h with ⟨r, rfl⟩
    exact ⟨l, r, (List.append_assoc l q r).symm⟩
  · rintro ⟨l, r, rfl⟩
    exact ⟨l, q ++ r, List.append_assoc l q r, (likeMatch_lit_pct_iff q hw (q ++ r)).mpr ⟨r, rfl⟩⟩

theorem likeMatch_pct_any (s : List Char) : likeMatch ['%'] s = true :=
  (likeMatch_pct_iff [] s).mpr ⟨s, [], (List.append_nil s).symm, rfl⟩

theorem likeMatch_pct2_any (s : List Char) : likeMatch ['%', '%'] s = true :=
  (likeMatch_pct_iff ['%'] s).mpr ⟨[], s, rfl, likeMatch_pct_any s⟩

theorem likeMatch_pct3_any (s : List Char) : likeMatch ['%', '%', '%'] s = true :=
  (likeMatch_pct_iff ['%', '%'] s).mpr ⟨[], s, rfl, likeMatch_pct2_any s⟩

theorem upcomingKeep_eq_true_iff (now : Date) (c : Contact) :
    upcomingKeep now c = some true ↔
      ∃ b bty, c.birthday = some b ∧ replaceYear b now.year = some bty
        ∧ 0 ≤ toDays bty - toDays now ∧ toDays bty - toDays now ≤ 7 := by
  unfold upcomingKeep
  cases hb : c.birthday with
  | none => simp
  | some b =>
    cases hr : replaceYear b now.year with
    | none => simp [hr]
    | some bty =>
      simp only [hr, Option.some.injEq, decide_eq_true_eq]
      constructor
      · intro hdays
        exact ⟨b, bty, rfl, hr, hdays.1, by omega⟩
      · rintro ⟨b2, bty2, hb2, hr2, h0, h7⟩
        cases hb2
        rw [hr] at hr2
        cases hr2
        exact ⟨h0, by omega⟩

theorem birthdaysFilter_mem (now : Date) :
    ∀ {cs l : List Contact}, birthdaysFilter now cs = some l →
      ∀ c, c ∈ l ↔ c ∈ cs ∧ upcomingKeep now c = some true := by
  intro cs
  induction cs with
  | nil =>
    intro l hl c
    cases hl
    simp
  | cons a rest ih =>
    intro l hl c
    unfold birthdaysFilter at hl
    cases hk : upcomingKeep now a with
    | none => rw [hk] at hl; cases hl
    | some keep =>
      rw [hk] at hl
      cases ht : birthdaysFilter now rest with
      | none => rw [ht] at hl; cases hl
      | some tail =>
        rw [ht] at hl
        injection hl with hl2
        subst hl2
        have htail := ih ht
        cases keep with
        | true =>
          rw [show (if true = true then a :: tail else tail) = a :: tail from rfl]
          constructor
          · intro hmem
            rcases List.mem_cons.mp hmem with rfl | hc
            · exact ⟨List.mem_cons_self _ _, hk⟩
            · rcases (htail c).mp hc with ⟨hcr, hk2⟩
              exact ⟨List.mem_cons_of_mem _ hcr, hk2⟩
          · rintro ⟨hmem, hk2⟩
            rcases List.mem_cons.mp hmem with rfl | hcr
            · exact List.mem_cons_self _ _
            · exact List.mem_cons_of_mem _ ((htail c).mpr ⟨hcr, hk2⟩)
        | false =>
          rw [show (if false = true then a :: tail else tail) = tail from rfl]
          constructor
          · intro hmem
            rcases (htail c).mp hmem with ⟨hcr, hk2⟩
            exact ⟨List.mem_cons_of_mem _ hcr, hk2⟩
          · rintro ⟨hmem, hk2⟩
            rcases List.mem_cons.mp hmem with rfl | hcr
            · simp [hk] at hk2
            · exact (htail c).mpr ⟨hcr, hk2⟩

theorem update_contact_of_some_clash {u : User} {cid : Nat} {body : ContactModel} {now : Nat}
    {db : Db} {c : Contact} (h : get_contact_by_id u cid db = some c)
    (hcl : db.contacts.any
      (fun x => !(x.id == c.id) && (x.email == body.email || x.phone == body.phone)) = true) :
    update_contact u cid body now db = Except.error StoreErr.uniqueViolation := by
  unfold update_contact
  rw [h]
  simp only [hcl, if_true]

/-! ### Claim theorems -/

/-- Claim C1 (code bug, evaluation at the failing input): the same-user
duplicate is indeed answered 409 by the pre-check, but when a different
user (`uUser`) posts `cAlice`'s email, both per-user probes miss, the
insert hits the store's global uniqueness constraint, and the violation
escapes the `create` route as an unhandled internal error (500) — not as
the Conflict the claim requires — leaving the store unchanged. -/
theorem claim_C1_store_violation_unhandled :
    (route_create_contact uAdmin bodySameUserDup 5 dbAlice).1 = Except.error ApiError.conflict
    ∧ get_contact_by_email uUser "alice@example.com" dbAlice = none
    ∧ get_contact_by_phone uUser "3333333333" dbAlice = none
    ∧ route_create_contact uUser bodyCrossUserDup 5 dbAlice
        = (Except.error ApiError.internalError, dbAlice) :=
  ⟨rfl, rfl, rfl, rfl⟩

/-- Claim C2 (code bug, evaluation at the failing input): the declared
delete policy `allowed_operation_remove` forbids the roles `user` and
`moderator`, but the delete route is wired to `allowed_operation_get`, so
a role-`user` caller reaches the delete logic: a missing contact yields
404 (not 403) and the caller's own contact is actually deleted. -/
theorem claim_C2_delete_gate_slip :
    roleCheck allowed_operation_remove Role.user = false
    ∧ roleCheck allowed_operation_remove Role.moderator = false
    ∧ (route_delete_contact uUser 99 dbBoth).1 = Except.error ApiError.notFound
    ∧ (route_delete_contact uUser 2 dbBoth).1 = Except.ok cBob
    ∧ (route_delete_contact uUser 2 dbBoth).2.contacts = [cAlice]
    ∧ (route_delete_contact uMod 99 dbBoth).1 = Except.error ApiError.notFound :=
  ⟨rfl, rfl, rfl, rfl, rfl, rfl⟩

/-- Claim C3 (code bug, evaluation at the failing input): the declared
update policy `allowed_operation_update` forbids the role `user`, but the
update route is wired to `allowed_operation_get`, so a role-`user` caller
reaches the update logic: a missing contact yields 404 (not 403) and the
caller's own contact is actually updated with the new field values. -/
theorem claim_C3_update_gate_slip :
    roleCheck allowed_operation_update Role.user = false
    ∧ (route_update_contact uUser 99 bodyFresh 7 dbBoth).1 = Except.error ApiError.notFound
    ∧ (route_update_contact uUser 2 bodyFresh 7 dbBoth).1
        = Except.ok { cBob with name := "Carol", surname := "Nova",
                                email := "carol@example.com", phone := "4444444444",
                                additional_info := "", updated_at := 7 } :=
  ⟨rfl, rfl, rfl⟩

/-- Claim C6 (confirmed): with a contact whose birthday is February 29 and
a current year that is not a leap year (2023), `birthday.replace(year=
now.year)` raises, so `get_birthdays` fails as a whole instead of
returning a list; in a leap year (2024) the same store yields a normal
(here empty) result. -/
theorem claim_C6_feb29_aborts_birthdays :
    get_birthdays uAdmin ⟨2023, 6, 10⟩ dbFeb29 = none
    ∧ get_birthdays uAdmin ⟨2024, 6, 10⟩ dbFeb29 = some [] :=
  ⟨rfl, rfl⟩

/-- Claim C7 (amended): when a per-user probe (by email or by phone) hits,
the create route answers Conflict having persisted nothing; when both
probes miss and no contact of any user holds the email or phone, it
persists and returns the new record with generated identifier, both
timestamps, and the requesting owner; but when both probes miss while
another user's contact holds the email or phone, the store rejects the
insert and the error escapes unhandled — nothing is persisted and no
Conflict is produced. -/
theorem claim_C7_create_conflict_flow (u : User) (body : ContactModel) (now : Nat) (db : Db) :
    (((get_contact_by_email u body.email db).isSome
        || (get_contact_by_phone u body.phone db).isSome) = true →
      route_create_contact u body now db = (Except.error ApiError.conflict, db))
    ∧ (get_contact_by_email u body.email db = none →
       get_contact_by_phone u body.phone db = none →
       db.contacts.any (fun x => x.email == body.email || x.phone == body.phone) = false →
        ∃ c, route_create_contact u body now db
            = (Except.ok c, { contacts := db.contacts ++ [c], nextId := db.nextId + 1 })
          ∧ c.id = db.nextId ∧ c.name = body.name ∧ c.surname = body.surname
          ∧ c.email = body.email ∧ c.phone = body.phone ∧ c.birthday = body.birthday
          ∧ c.additional_info = body.additional_info
          ∧ c.created_at = now ∧ c.updated_at = now ∧ c.user_id = u.id)
    ∧ (get_contact_by_email u body.email db = none →
       get_contact_by_phone u body.phone db = none →
       db.contacts.any (fun x => x.email == body.email || x.phone == body.phone) = true →
        route_create_contact u body now db = (Except.error ApiError.internalError, db)) := by
  refine ⟨fun hprobe => ?_, fun he hp hcl => ?_, fun he hp hcl => ?_⟩
  · unfold route_create_contact
    simp [roleCheck_create_all, hprobe]
  · refine ⟨newContact u body now db, ?_, rfl, rfl, rfl, rfl, rfl, rfl, rfl, rfl, rfl, rfl⟩
    unfold route_create_contact
    simp [roleCheck_create_all, he, hp, create_contact_of_fresh hcl]
  · unfold route_create_contact
    simp [roleCheck_create_all, he, hp, create_contact_of_clash hcl]

/-- Claim C7, counterexample to the claim as stated: `uMod` owns nothing,
both per-user probes miss on `bodyEve` (its phone is `cAlice`'s), yet the
create does not persist and return the new record — the insert is
rejected by the store and surfaces as an unhandled internal error. -/
theorem claim_C7_counterexample :
    get_contact_by_email uMod "eve@example.com" dbAlice = none
    ∧ get_contact_by_phone uMod "1111111111" dbAlice = none
    ∧ route_create_contact uMod bodyEve 5 dbAlice
        = (Except.error ApiError.internalError, dbAlice) :=
  ⟨rfl, rfl, rfl⟩

/-- Claim C7, witness: a same-user duplicate email yields Conflict with the
store untouched, and a fresh body is persisted and returned in full. -/
theorem claim_C7_create_conflict_flow_w :
    route_create_contact uAdmin bodySameUserDup 5 dbAlice
      = (Except.error ApiError.conflict, dbAlice)
    ∧ ∃ c, route_create_contact uAdmin bodyFresh 5 dbAlice
          = (Except.ok c, { contacts := dbAlice.contacts ++ [c], nextId := dbAlice.nextId + 1 })
        ∧ c.id = dbAlice.nextId ∧ c.name = bodyFresh.name ∧ c.surname = bodyFresh.surname
        ∧ c.email = bodyFresh.email ∧ c.phone = bodyFresh.phone ∧ c.birthday = bodyFresh.birthday
        ∧ c.additional_info = bodyFresh.additional_info
        ∧ c.created_at = 5 ∧ c.updated_at = 5 ∧ c.user_id = uAdmin.id :=
  ⟨(claim_C7_create_conflict_flow uAdmin bodySameUserDup 5 dbAlice).1 rfl,
   (claim_C7_create_conflict_flow uAdmin bodyFresh 5 dbAlice).2.1 rfl rfl rfl⟩

/-- Claim C8 (amended): on a missing contact the update returns the
not-found signal with the store untouched; on the user's contact, when the
new email and phone do not collide with a different stored row, the update
is a full replace — the resulting record's six mutable fields exactly
equal the new body, nothing inherited — and the result is persisted. -/
theorem claim_C8_update_full_replace (u : User) (cid : Nat) (body : ContactModel)
    (now : Nat) (db : Db) :
    (get_contact_by_id u cid db = none → update_contact u cid body now db = Except.ok (none, db))
    ∧ (∀ c, get_contact_by_id u cid db = some c →
        db.contacts.any
          (fun x => !(x.id == c.id) && (x.email == body.email || x.phone == body.phone)) = false →
        ∃ c2 db2, update_contact u cid body now db = Except.ok (some c2, db2)
          ∧ c2.name = body.name ∧ c2.surname = body.surname ∧ c2.email = body.email
          ∧ c2.phone = body.phone ∧ c2.birthday = body.birthday
          ∧ c2.additional_info = body.additional_info
          ∧ c2.id = c.id ∧ c2 ∈ db2.contacts) := by
  refine ⟨fun h => update_contact_of_none h, fun c h hcl => ?_⟩
  refine ⟨_, _, update_contact_of_some_fresh h hcl, rfl, rfl, rfl, rfl, rfl, rfl, rfl, ?_⟩
  have hmem : c ∈ db.contacts := List.mem_of_find?_eq_some h
  have hmap := List.mem_map_of_mem
    (fun x => if x.id == c.id then applyBody body now c else x) hmem
  simpa using hmap

/-- Claim C8, counterexample to the claim as stated: after
`create(uAdmin, bodyFresh)` persists `cCarol`, updating that contact to a
body carrying `cAlice`'s email does not yield a record equal to the new
body — the commit violates the store's uniqueness constraint and the
update fails. -/
theorem claim_C8_counterexample :
    create_contact uAdmin bodyFresh 5 dbAlice = Except.ok (cCarol, dbAliceCarol)
    ∧ get_contact_by_id uAdmin 2 dbAliceCarol = some cCarol
    ∧ update_contact uAdmin 2 bodyCrossUserDup 6 dbAliceCarol
        = Except.error StoreErr.uniqueViolation :=
  ⟨rfl, rfl, rfl⟩

/-- Claim C8, witness: updating the created `cCarol` with the fresh body
`bodyDana` replaces all six mutable fields. -/
theorem claim_C8_update_full_replace_w :
    ∃ c2 db2, update_contact uAdmin 2 bodyDana 7 dbAliceCarol = Except.ok (some c2, db2)
      ∧ c2.name = bodyDana.name ∧ c2.surname = bodyDana.surname ∧ c2.email = bodyDana.email
      ∧ c2.phone = bodyDana.phone ∧ c2.birthday = bodyDana.birthday
      ∧ c2.additional_info = bodyDana.additional_info
      ∧ c2.id = cCarol.id ∧ c2 ∈ db2.contacts :=
  (claim_C8_update_full_replace uAdmin 2 bodyDana 7 dbAliceCarol).2 cCarol rfl rfl

/-- Claim C9 (confirmed): deleting a contact that exists for the user
removes it (it is gone from the store, every other row survives) and
returns the removed record; deleting a missing one returns the not-found
signal with the store untouched; in particular a second delete of the same
identifier returns not-found. -/
theorem claim_C9_delete_semantics (u : User) (cid : Nat) (db : Db) :
    (get_contact_by_id u cid db = none → delete_contact u cid db = (none, db))
    ∧ (∀ c, get_contact_by_id u cid db = some c →
        (delete_contact u cid db).1 = some c
        ∧ c ∉ (delete_contact u cid db).2.contacts
        ∧ (∀ x, x ∈ db.contacts → x.id ≠ c.id → x ∈ (delete_contact u cid db).2.contacts)
        ∧ delete_contact u cid (delete_contact u cid db).2
            = (none, (delete_contact u cid db).2)) := by
  refine ⟨fun h => delete_contact_of_none h, fun c h => ?_⟩
  have hfind : db.contacts.find? (fun x => x.user_id == u.id && x.id == cid) = some c := h
  have hc := List.find?_some hfind
  simp only [Bool.and_eq_true, beq_iff_eq] at hc
  rw [delete_contact_of_some h]
  refine ⟨rfl, ?_, ?_, ?_⟩
  · simp [List.mem_filter]
  · intro x hx hne
    simp [List.mem_filter, hx, hne]
  · have hnone : get_contact_by_id u cid
        { db with contacts := db.contacts.filter (fun x => !(x.id == c.id)) } = none := by
      unfold get_contact_by_id
      rw [List.find?_eq_none]
      intro x hx
      rcases List.mem_filter.mp hx with ⟨_, hpx⟩
      simp only [Bool.not_eq_true', beq_eq_false_iff_ne, ne_eq] at hpx
      simp only [Bool.and_eq_true, beq_iff_eq, not_and]
      intro _ hxid
      exact hpx (hxid.trans hc.2.symm)
    exact delete_contact_of_none hnone

/-- Claim C9, witness: deleting `cAlice` from the two-row store returns it,
and deleting identifier 1 again on the resulting store returns not-found. -/
theorem claim_C9_delete_semantics_w :
    (delete_contact uAdmin 1 dbBoth).1 = some cAlice
    ∧ delete_contact uAdmin 1 (delete_contact uAdmin 1 dbBoth).2
        = (none, (delete_contact uAdmin 1 dbBoth).2) := by
  have h := (claim_C9_delete_semantics uAdmin 1 dbBoth).2 cAlice rfl
  exact ⟨h.1, h.2.2.2⟩

/-- Claim C4 (confirmed): with distinct primary keys, a contact owned by
user A is invisible to user B — `getById(B, c.id)` answers the not-found
signal, not a forbidden one — and every operation is scoped to its user:
list, search, birthday and exact-match reads return only the caller's
rows, while update and delete leave every other user's rows in place. -/
theorem claim_C4_per_user_scoping :
    (∀ (a b : User) (c : Contact) (db : Db),
        (db.contacts.map Contact.id).Nodup → c ∈ db.contacts → c.user_id = a.id →
        a.id ≠ b.id → get_contact_by_id b c.id db = none)
    ∧ (∀ (u : User) (limit offset : Nat) (db : Db) (c : Contact),
        c ∈ get_contacts u limit offset db → c.user_id = u.id)
    ∧ (∀ (u : User) (e : String) (db : Db) (c : Contact),
        get_contact_by_email u e db = some c → c.user_id = u.id)
    ∧ (∀ (u : User) (p : String) (db : Db) (c : Contact),
        get_contact_by_phone u p db = some c → c.user_id = u.id)
    ∧ (∀ (u : User) (q : String) (db : Db) (c : Contact),
        c ∈ search_contacts u q db → c.user_id = u.id)
    ∧ (∀ (u : User) (now : Date) (db : Db) (l : List Contact) (c : Contact),
        get_birthdays u now db = some l → c ∈ l → c.user_id = u.id)
    ∧ (∀ (u : User) (cid : Nat) (body : ContactModel) (now : Nat) (db : Db)
         (res : Option Contact × Db),
        (db.contacts.map Contact.id).Nodup →
        update_contact u cid body now db = Except.ok res →
        ∀ x, x ∈ db.contacts → x.user_id ≠ u.id → x ∈ res.2.contacts)
    ∧ (∀ (u : User) (cid : Nat) (db : Db) (x : Contact),
        (db.contacts.map Contact.id).Nodup →
        x ∈ db.contacts → x.user_id ≠ u.id → x ∈ (delete_contact u cid db).2.contacts) := by
  refine ⟨?_, ?_, ?_, ?_, ?_, ?_, ?_, ?_⟩
  · intro a b c db hnd hc hca hab
    unfold get_contact_by_id
    rw [List.find?_eq_none]
    intro x hx
    simp only [Bool.and_eq_true, beq_iff_eq, not_and]
    intro hxu hxid
    have hxc : x = c := List.inj_on_of_nodup_map hnd hx hc hxid
    rw [hxc] at hxu
    exact hab (hca.symm.trans hxu)
  · intro u limit offset db c hc
    have h2 := List.mem_of_mem_drop (List.mem_of_mem_take hc)
    have h3 := List.mem_filter.mp h2
    simpa using h3.2
  · intro u e db c h
    have hfind : db.contacts.find? (fun x => x.user_id == u.id && x.email == e) = some c := h
    have := List.find?_some hfind
    simp only [Bool.and_eq_true, beq_iff_eq] at this
    exact this.1
  · intro u p db c h
    have hfind : db.contacts.find? (fun x => x.user_id == u.id && x.phone == p) = some c := h
    have := List.find?_some hfind
    simp only [Bool.and_eq_true, beq_iff_eq] at this
    exact this.1
  · intro u q db c hc
    have h3 := List.mem_filter.mp hc
    have := h3.2
    simp only [Bool.and_eq_true, beq_iff_eq] at this
    exact this.1
  · intro u now db l c hl hc
    unfold get_birthdays at hl
    have := (birthdaysFilter_mem now hl c).mp hc
    have h3 := List.mem_filter.mp this.1
    simpa using h3.2
  · intro u cid body now db res hnd hupd x hx hxu
    cases h : get_contact_by_id u cid db with
    | none =>
      rw [update_contact_of_none h] at hupd
      injection hupd with he
      rw [← he]
      exact hx
    | some c0 =>
      have hfind : db.contacts.find? (fun y => y.user_id == u.id && y.id == cid) = some c0 := h
      have hp := List.find?_some hfind
      simp only [Bool.and_eq_true, beq_iff_eq] at hp
      have hc0 : c0 ∈ db.contacts := List.mem_of_find?_eq_some hfind
      have hne : ¬ x.id = c0.id := by
        intro hid
        have := List.inj_on_of_nodup_map hnd hx hc0 hid
        rw [this] at hxu
        exact hxu hp.1
      cases hcl : db.contacts.any
          (fun y => !(y.id == c0.id) && (y.email == body.email || y.phone == body.phone)) with
      | true =>
        rw [update_contact_of_some_clash h hcl] at hupd
        cases hupd
      | false =>
        rw [update_contact_of_some_fresh h hcl] at hupd
        injection hupd with he
        rw [← he]
        have hmm := List.mem_map_of_mem
          (fun y => if y.id == c0.id then applyBody body now c0 else y) hx
        simpa [hne] using hmm
  · intro u cid db x hnd hx hxu
    cases h : get_contact_by_id u cid db with
    | none =>
      rw [delete_contact_of_none h]
      exact hx
    | some c0 =>
      have hfind : db.contacts.find? (fun y => y.user_id == u.id && y.id == cid) = some c0 := h
      have hp := List.find?_some hfind
      simp only [Bool.and_eq_true, beq_iff_eq] at hp
      have hc0 : c0 ∈ db.contacts := List.mem_of_find?_eq_some hfind
      have hne : ¬ x.id = c0.id := by
        intro hid
        have := List.inj_on_of_nodup_map hnd hx hc0 hid
        rw [this] at hxu
        exact hxu hp.1
      rw [delete_contact_of_some h]
      exact List.mem_filter.mpr ⟨hx, by simpa using hne⟩

/-- Claim C4, witness: `uUser` looking up `cAlice`'s identifier in the
two-user store gets not-found. -/
theorem claim_C4_per_user_scoping_w :
    get_contact_by_id uUser cAlice.id dbBoth = none :=
  claim_C4_per_user_scoping.1 uAdmin uUser cAlice dbBoth (by decide) (by decide) rfl (by decide)

/-- Claim C5 (confirmed): whenever `get_birthdays` returns a list, a
contact is in it exactly when it belongs to the user, carries a birthday,
that birthday transplanted to the current year is a valid date, and the
day count from today to it lies in the inclusive range [0, 7]; hence a
birthday already past (negative count) is excluded rather than rolled to
next year, and a contact without birthday is excluded. -/
theorem claim_C5_birthday_window (u : User) (now : Date) (db : Db) (l : List Contact) :
    get_birthdays u now db = some l →
    ∀ c, c ∈ l ↔
      c ∈ db.contacts ∧ c.user_id = u.id ∧
      ∃ b bty, c.birthday = some b ∧ replaceYear b now.year = some bty
        ∧ 0 ≤ toDays bty - toDays now ∧ toDays bty - toDays now ≤ 7 := by
  intro hl c
  unfold get_birthdays at hl
  rw [birthdaysFilter_mem now hl c, List.mem_filter, upcomingKeep_eq_true_iff]
  simp [and_assoc]

/-- Claim C5, witness: on 2024-06-10 the store with birthdays 06-15,
06-20 and 06-09 yields exactly the 06-15 contact, five days ahead. -/
theorem claim_C5_birthday_window_w :
    ∃ b bty, c615.birthday = some b ∧ replaceYear b (2024 : Nat) = some bty
      ∧ 0 ≤ toDays bty - toDays ⟨2024, 6, 10⟩ ∧ toDays bty - toDays ⟨2024, 6, 10⟩ ≤ 7 :=
  ((claim_C5_birthday_window uAdmin ⟨2024, 6, 10⟩ dbBirthdays [c615] rfl c615).mp
    (by decide)).2.2


/-- Claim C10 (amended): the search predicate is SQL
`lower(field) LIKE '%' || lower(query) || '%'` with no escaping.  For
every query whose lowered form contains no `%` and no `_`, search returns
exactly the user's contacts for which the query is a case-insensitive
substring of the name, the surname, the email, or the phone — all
matches, no pagination.  For wildcard-bearing queries the `LIKE`
semantics takes over: the query `"%"` matches every contact of the
user. -/
theorem claim_C10_search_matches :
    (∀ (u : User) (q : String) (db : Db) (c : Contact),
        noWild (strLower q).data = true →
        (c ∈ search_contacts u q db ↔
          c ∈ db.contacts ∧ c.user_id = u.id ∧
          ((∃ l r, (strLower c.name).data = l ++ (strLower q).data ++ r)
           ∨ (∃ l r, (strLower c.surname).data = l ++ (strLower q).data ++ r)
           ∨ (∃ l r, (strLower c.email).data = l ++ (strLower q).data ++ r)
           ∨ (∃ l r, (strLower c.phone).data = l ++ (strLower q).data ++ r))))
    ∧ (∀ (u : User) (db : Db) (c : Contact),
        c ∈ db.contacts → c.user_id = u.id → c ∈ search_contacts u "%" db) := by
  constructor
  · intro u q db c hw
    unfold search_contacts lowerContains
    rw [List.mem_filter]
    simp [Bool.and_eq_true, Bool.or_eq_true, beq_iff_eq,
      likeMatch_substring_iff hw, and_assoc, or_assoc]
  · intro u db c hc hu
    unfold search_contacts
    refine List.mem_filter.mpr ⟨hc, ?_⟩
    have hq : (strLower "%").data = ['%'] := rfl
    simp only [lowerContains, hq, List.singleton_append]
    simp [hu, likeMatch_pct3_any]

/-- Claim C10, counterexample to the claim as stated: for the query `"%"`
the search returns `cAnn` although `"%"` is not a (case-insensitive)
substring of any of its four fields — the `%` acts as a `LIKE` wildcard,
not as a literal character. -/
theorem claim_C10_counterexample :
    cAnn ∈ search_contacts uAdmin "%" dbAnn
    ∧ ¬ (∃ l r, (strLower cAnn.name).data = l ++ (strLower "%").data ++ r)
    ∧ ¬ (∃ l r, (strLower cAnn.surname).data = l ++ (strLower "%").data ++ r)
    ∧ ¬ (∃ l r, (strLower cAnn.email).data = l ++ (strLower "%").data ++ r)
    ∧ ¬ (∃ l r, (strLower cAnn.phone).data = l ++ (strLower "%").data ++ r) := by
  refine ⟨by decide, ?_, ?_, ?_, ?_⟩ <;>
    · rintro ⟨l, r, h⟩
      exact absurd ((subStr_iff _ _).mpr ⟨l, r, h⟩) (by decide)

/-- Claim C10, witness: the spec's "Ann Lee" example, queried with "ANN"
and with "x.com" (wildcard-free), and with the wildcard query "%". -/
theorem claim_C10_search_matches_w :
    cAnn ∈ search_contacts uAdmin "ANN" dbAnn
    ∧ cAnn ∈ search_contacts uAdmin "x.com" dbAnn
    ∧ cAnn ∈ search_contacts uAdmin "%" dbAnn :=
  ⟨(claim_C10_search_matches.1 uAdmin "ANN" dbAnn cAnn (by decide)).mpr
     ⟨by decide, rfl, Or.inl ⟨[], " lee".data, by decide⟩⟩,
   (claim_C10_search_matches.1 uAdmin "x.com" dbAnn cAnn (by decide)).mpr
     ⟨by decide, rfl, Or.inr (Or.inr (Or.inl ⟨"a@".data, [], by decide⟩))⟩,
   claim_C10_search_matches.2 uAdmin dbAnn cAnn (by decide) rfl⟩

end ContactsApp
